import Mathlib

/-!
Verification of the sentinel-ai policy-governed command-execution sandbox.

This file gives a shallow embedding, in Lean 4, of the core components of the
sentinel-ai repository (command-runner allowlist matching, patcher path guard,
audit-log redaction, engine scan exit codes and the unimplemented stubs), and
proves or refutes the behavioural claims made about them.

Modelling conventions:
* Go strings are modelled as `List Char` (`GoStr`); `gs` converts a Lean
  string literal.  Lengths count characters, which agrees with Go's byte
  length on the ASCII data handled here.
* Go standard-library helpers used by the repository (`strings.HasPrefix`,
  `strings.Contains`, `path/filepath.Clean/Abs/Join`) are modelled by
  executable Lean functions implementing their documented lexical semantics
  for Unix paths.  `filepath.Abs` consults the process working directory, so
  the model takes the working directory `cwd` as an explicit argument.
* `filepath.Match` (the glob matcher, also Go standard library) never
  influences any claim proved here (every glob-dependent statement either
  holds for an arbitrary matcher or uses an empty glob list), so it is kept
  as an abstract function parameter `globMatch` of the patcher model.
* Wall-clock readings (`time.Now` / `time.Since`) and external process
  execution are oracles: the elapsed durations and the process outcome are
  explicit arguments, and external effects (process starts, audit writes)
  are collected in an explicit effect trace.
-/

/-- Model of a Go string: a list of characters. -/
abbrev GoStr := List Char

/-- Convert a Lean string literal to the Go-string model. -/
def gs (s : String) : GoStr := s.data

/-- Model of Go `strings.HasPrefix s pre` (note: receiver string first). -/
def hasPrefixStr : GoStr → GoStr → Bool
  | _, [] => true
  | [], _ :: _ => false
  | c :: s, p :: ps => if c = p then hasPrefixStr s ps else false

/-- Model of Go `strings.Contains s sub`: `sub` occurs as a contiguous
substring of `s`. -/
def containsStr (sub : GoStr) : GoStr → Bool
  | [] => hasPrefixStr [] sub
  | c :: rest => hasPrefixStr (c :: rest) sub || containsStr sub rest

/-- Model of Go `strings.ToLower` (ASCII; the repository only feeds it ASCII
keyword comparisons). -/
def toLowerStr (s : GoStr) : GoStr := s.map Char.toLower

/-- Split a string on a separator character; mirrors Go
`strings.Split s (String sep)`. -/
def splitOnSep (sep : Char) (s : GoStr) : List GoStr :=
  s.foldr
    (fun c acc =>
      match acc with
      | [] => [[c]]
      | g :: rest => if c = sep then [] :: acc else (c :: g) :: rest)
    [[]]

/-- Model of Go `path/filepath.IsAbs` on Unix: the path starts with `/`. -/
def filepathIsAbs (path : GoStr) : Bool :=
  match path with
  | [] => false
  | c :: _ => c = '/'

/-- One step of the lexical `Clean` element processing: push a path element
onto the (reversed) stack of output elements. -/
def cleanPushElem (rooted : Bool) (st : List GoStr) (c : GoStr) : List GoStr :=
  if c = [] ∨ c = ['.'] then st
  else if c = ['.', '.'] then
    match st with
    | [] => if rooted then [] else [c]
    | last :: rest => if last = ['.', '.'] then c :: st else rest
  else c :: st

/-- Model of Go `path/filepath.Clean` on Unix: purely lexical cleaning —
collapse separators, drop `.` elements, resolve `..` against preceding
elements (dropping `..` at the root), empty input cleans to `.`. -/
def filepathClean (path : GoStr) : GoStr :=
  if path = [] then ['.']
  else
    let rooted := filepathIsAbs path
    let stack := (splitOnSep '/' path).foldl (cleanPushElem rooted) []
    let out := List.intercalate ['/'] stack.reverse
    if rooted then '/' :: out
    else if out = [] then ['.'] else out

/-- Model of Go `path/filepath.Join` on Unix for two elements: skip empty
elements, join with `/`, then `Clean`. -/
def filepathJoin (a b : GoStr) : GoStr :=
  if a ≠ [] then filepathClean (a ++ '/' :: b)
  else if b ≠ [] then filepathClean b
  else []

/-- Model of Go `path/filepath.Abs` with the working directory `cwd` made
explicit: absolute paths are cleaned, relative paths are joined onto `cwd`.
The only error case in Go (failing to read the working directory) does not
arise since `cwd` is supplied. -/
def filepathAbs (cwd path : GoStr) : GoStr :=
  if filepathIsAbs path then filepathClean path else filepathJoin cwd path

/-- Claim-side notion used by C3/C9: path `u` falls under directory `d`
(directory containment at a path-component boundary): `u` is `d` itself or
has `d ++ "/"` as a prefix. -/
def isUnderDir (u d : GoStr) : Bool :=
  decide (u = d) || hasPrefixStr u (d ++ ['/'])

example : filepathClean (gs "/ws/../../etc/passwd") = gs "/etc/passwd" := by decide
example : filepathAbs (gs "/ws") (gs "../../etc/passwd") = gs "/etc/passwd" := by decide
example : filepathClean (gs "") = gs "." := by decide
example : filepathClean (gs "/") = gs "/" := by decide
example : filepathClean (gs "a//b/./c/..") = gs "a/b" := by decide
example : filepathClean (gs "../x") = gs "../x" := by decide
example : hasPrefixStr (gs "/wsother/f") (gs "/ws") = true := by decide
example : isUnderDir (gs "/wsother/f") (gs "/ws") = false := by decide
example : isUnderDir (gs "/ws/f") (gs "/ws") = true := by decide
example : containsStr (gs "token") (toLowerStr (gs "MyTOKENvalue")) = true := by decide

/-! ## Policy (internal/policy/policy.go) -/

/-- Embedding of `policy.Mode`. -/
structure Mode where
  ReadOnly : Bool
  Network : Bool
  MaxRuntimeSec : Int
  MaxTokens : Int

/-- Embedding of `policy.Limits`. -/
structure Limits where
  MaxFiles : Int
  MaxFileBytes : Int
  MaxPatchBytes : Int
  MaxIterations : Int

/-- Embedding of `policy.Allowlist`: the list of allowlisted command tuples,
each tuple being `[program, arg1, ...]`. -/
structure Allowlist where
  Commands : List (List GoStr)

/-- Embedding of `policy.SecurityConfig`. -/
structure SecurityConfig where
  DenyPaths : List GoStr
  DenyGlobs : List GoStr

/-- Embedding of `policy.LoggingConfig`. -/
structure LoggingConfig where
  PIIRedaction : Bool

/-- Embedding of `policy.Policy` (fields not consulted by any claim —
`Version`, `Modes`, `Models`, `Patch` — are carried as plain data or
omitted where they are pure configuration records). -/
structure Policy where
  Version : GoStr
  Limits : Limits
  Allowlist : Allowlist
  Security : SecurityConfig
  Logging : LoggingConfig

/-- Embedding of the inner argument loop of `Policy.IsCommandAllowed`
(policy.go lines 188-194): compare `allowed[1:]` positionally against
`args`; the extra-element case is unreachable under the length guard but the
model is total. -/
def Policy.argsMatchLoop : List GoStr → List GoStr → Bool
  | [], _ => true
  | a :: as, b :: bs => if a = b then Policy.argsMatchLoop as bs else false
  | _ :: _, [] => false

/-- Embedding of `Policy.IsCommandAllowed` (policy.go lines 185-201): some
allowlist tuple has length `len(args)+1`, head equal to `cmd`, and tail
positionally equal to `args`. -/
def Policy.IsCommandAllowed (p : Policy) (cmd : GoStr) (args : List GoStr) : Bool :=
  p.Allowlist.Commands.any fun al =>
    match al with
    | [] => false
    | a0 :: rest =>
      decide (rest.length = args.length) && decide (a0 = cmd) &&
        Policy.argsMatchLoop rest args

/-! ## Command runner (internal/tools/runner.go) -/

/-- Embedding of `tools.Runner`. -/
structure Runner where
  Allow : List (List GoStr)
  Timeout : Int

/-- Embedding of `tools.NewRunner`. -/
def NewRunner (allowlist : List (List GoStr)) (timeout : Int) : Runner :=
  { Allow := allowlist, Timeout := timeout }

/-- Embedding of the inner argument loop of `Runner.allowed` (runner.go lines
72-77); duplicated from the policy package exactly as the source duplicates
it. -/
def Runner.argsMatchLoop : List GoStr → List GoStr → Bool
  | [], _ => true
  | a :: as, b :: bs => if a = b then Runner.argsMatchLoop as bs else false
  | _ :: _, [] => false

/-- Embedding of `Runner.allowed` (runner.go lines 68-84). -/
def Runner.allowed (r : Runner) (cmd : GoStr) (args : List GoStr) : Bool :=
  r.Allow.any fun al =>
    match al with
    | [] => false
    | a0 :: rest =>
      decide (rest.length = args.length) && decide (a0 = cmd) &&
        Runner.argsMatchLoop rest args

/-- Embedding of `tools.RunResult`. -/
structure RunResult where
  Stdout : GoStr
  Stderr : Option GoStr
  ExitCode : Int
  Duration : Int
  Error : Option GoStr

/-- Oracle describing what the external process execution would produce if it
were started: combined output, error, exit code, whether a process state is
available, and the wall-clock time it consumes. -/
structure ExecOutcome where
  Output : GoStr
  Err : Option GoStr
  ExitCode : Int
  HasProcessState : Bool
  Elapsed : Int

/-- Embedding of `logging.LogEntry` (audit.go lines 18-28), with the
timestamp as an abstract instant. -/
structure LogEntry where
  Timestamp : Int
  Step : GoStr
  Event : GoStr
  Tool : GoStr
  Args : List GoStr
  DurationMs : Int
  Status : GoStr
  Error : GoStr

/-- External effects a `Run` invocation can perform: starting a process, or
writing an audit record. -/
inductive Effect where
  | procStart (cmd : GoStr) (args : List GoStr)
  | auditWrite (entry : LogEntry)

/-- Whether an effect is an audit write. -/
def Effect.isAuditWrite : Effect → Bool
  | .auditWrite _ => true
  | _ => false

/-- Embedding of `Runner.Run` (runner.go lines 34-65) as a pure function over
oracles.  `checkElapsed` is the wall-clock advance between the `time.Now()`
at entry and the `time.Since(start)` taken when the denial result is built
(the duration of the allowlist check itself); `exec` describes the external
process outcome used on the allowed branch.  The returned effect list records
every external effect the invocation performs: `Runner.Run` contains no call
to the audit logger, so no `auditWrite` effect ever occurs. -/
def Runner.RunModel (r : Runner) (cmd : GoStr) (args : List GoStr)
    (checkElapsed : Int) (exec : ExecOutcome) : RunResult × List Effect :=
  if !(r.allowed cmd args) then
    ({ Stdout := []
       Stderr := none
       ExitCode := 0
       Duration := checkElapsed
       Error := some (gs "command not allowlisted") }, [])
  else
    ({ Stdout := exec.Output
       Stderr := none
       ExitCode := if exec.HasProcessState then exec.ExitCode else 0
       Duration := checkElapsed + exec.Elapsed
       Error := exec.Err }, [Effect.procStart cmd args])

/-! ## Audit logger (internal/logging/audit.go) -/

/-- Embedding of `logging.containsSensitivePattern` (audit.go lines
184-193): the lowercased string contains one of the fixed sensitive keyword
substrings. -/
def containsSensitivePattern (s : GoStr) : Bool :=
  let sensitive := [gs "key", gs "token", gs "secret", gs "password", gs "auth"]
  let lower := toLowerStr s
  sensitive.any fun pat => containsStr pat lower

/-- Embedding of `logging.looksLikeToken` (audit.go lines 196-214): length at
least 20 with both an alphabetic and a numeric character. -/
def looksLikeToken (s : GoStr) : Bool :=
  if s.length < 20 then false
  else
    let hasAlpha := s.any fun r =>
      ('a'.toNat ≤ r.toNat && r.toNat ≤ 'z'.toNat) ||
        ('A'.toNat ≤ r.toNat && r.toNat ≤ 'Z'.toNat)
    let hasNum := s.any fun r => '0'.toNat ≤ r.toNat && r.toNat ≤ '9'.toNat
    hasAlpha && hasNum

/-- The fixed redaction marker used for arguments. -/
def redactedMarker : GoStr := gs "[REDACTED]"

/-- Embedding of `AuditLogger.maybeRedactArgs` (audit.go lines 153-168);
`redact` is the logger's PII-redaction flag. -/
def maybeRedactArgs (redact : Bool) (args : List GoStr) : List GoStr :=
  if !redact then args
  else
    args.map fun arg =>
      if decide (arg.length > 20) &&
          (containsSensitivePattern arg || looksLikeToken arg) then
        redactedMarker
      else arg

/-- Embedding of `AuditLogger.maybeRedactError` (audit.go lines 171-181). -/
def maybeRedactError (redact : Bool) (err : GoStr) : GoStr :=
  if !redact then err
  else if err.length > 100 then gs "[REDACTED ERROR]" else err

/-- Embedding of `AuditLogger.LogToolCall` (audit.go lines 51-67): the single
`tool.run` record it constructs (the timestamp is an abstract instant). -/
def LogToolCall (redact : Bool) (now : Int) (step tool : GoStr)
    (args : List GoStr) (durationMs : Int) (status : GoStr)
    (err : Option GoStr) : LogEntry :=
  { Timestamp := now
    Step := step
    Event := gs "tool.run"
    Tool := tool
    Args := maybeRedactArgs redact args
    DurationMs := durationMs
    Status := status
    Error :=
      match err with
      | some e => maybeRedactError redact e
      | none => [] }

/-! ## Patcher (internal/tools/patcher.go) -/

/-- Embedding of `tools.Patcher`. -/
structure Patcher where
  Workspace : GoStr
  DenyPaths : List GoStr
  DenyGlobs : List GoStr

/-- Embedding of `Patcher.isPathAllowed` (patcher.go lines 78-108).
`globMatch` abstracts the Go standard-library `filepath.Match` (with its
error ignored, as the source ignores it); `cwd` is the working directory
consulted by `filepath.Abs`.  The source's `filepath.Abs` error branches
cannot arise once the working directory is supplied. -/
def Patcher.isPathAllowed (p : Patcher) (globMatch : GoStr → GoStr → Bool)
    (cwd : GoStr) (path : GoStr) : Bool :=
  let cleanPath := filepathClean path
  if p.DenyPaths.any (fun denyPath => hasPrefixStr cleanPath denyPath) then
    false
  else if p.DenyGlobs.any (fun denyGlob => globMatch denyGlob cleanPath) then
    false
  else
    hasPrefixStr (filepathAbs cwd cleanPath) (filepathAbs cwd p.Workspace)

/-- Embedding of `tools.Hunk`. -/
structure Hunk where
  OldStart : Int
  OldCount : Int
  NewStart : Int
  NewCount : Int
  Lines : List GoStr

/-- Embedding of `tools.FilePatch`. -/
structure FilePatch where
  File : GoStr
  Hunks : List Hunk

/-- Embedding of `tools.ApplyResult`. -/
structure PatchApplyResult where
  Applied : Bool
  Files : List GoStr
  Error : GoStr

/-- Embedding of `Patcher.applySinglePatch` (patcher.go lines 111-120): an
explicit stub that performs no mutation and always returns the error
"patch application not implemented". -/
def applySinglePatch (_patch : FilePatch) : Option GoStr :=
  some (gs "patch application not implemented")

/-- Embedding of `tools.parseUnifiedDiff` (patcher.go lines 138-142): an
explicit stub that always fails with "diff parsing not implemented". -/
def parseUnifiedDiff (_diff : GoStr) : Except GoStr (List FilePatch) :=
  .error (gs "diff parsing not implemented")

/-- One iteration of the `ApplyPatch` loop (patcher.go lines 48-62) acting on
the accumulator `(appliedFiles, errors)`: a denied path or a failed single
patch appends an error message and skips the file; a successful single patch
appends the file to the applied list. -/
def applyPatchStep (p : Patcher) (globMatch : GoStr → GoStr → Bool)
    (cwd : GoStr) (acc : List GoStr × List GoStr) (patch : FilePatch) :
    List GoStr × List GoStr :=
  if !(p.isPathAllowed globMatch cwd patch.File) then
    (acc.1, acc.2 ++ [gs "path not allowed: " ++ patch.File])
  else
    match applySinglePatch patch with
    | some e =>
      (acc.1,
        acc.2 ++ [gs "failed to apply patch to " ++ patch.File ++ gs ": " ++ e])
    | none => (acc.1 ++ [patch.File], acc.2)

/-- The `ApplyPatch` loop over the parsed patch set, accumulating
`(appliedFiles, errors)` exactly as the source's range loop does. -/
def applyPatchLoop (p : Patcher) (globMatch : GoStr → GoStr → Bool)
    (cwd : GoStr) (patches : List FilePatch) : List GoStr × List GoStr :=
  patches.foldl (applyPatchStep p globMatch cwd) ([], [])

/-- The result `ApplyPatch` builds from the loop accumulator (patcher.go
lines 64-74): success iff no errors, error text joined with "; ". -/
def applyPatchResultOf (acc : List GoStr × List GoStr) : PatchApplyResult :=
  { Applied := decide (acc.2.length = 0)
    Files := acc.1
    Error :=
      if acc.2.length > 0 then List.intercalate (gs "; ") acc.2 else [] }

/-- Embedding of `Patcher.ApplyPatch` (patcher.go lines 34-75): parse the
unified diff (which in the current source always fails), then run the
per-file loop. -/
def Patcher.ApplyPatch (p : Patcher) (globMatch : GoStr → GoStr → Bool)
    (cwd : GoStr) (diff : GoStr) : PatchApplyResult :=
  match parseUnifiedDiff diff with
  | .error e =>
    { Applied := false, Files := [], Error := gs "failed to parse diff: " ++ e }
  | .ok patches => applyPatchResultOf (applyPatchLoop p globMatch cwd patches)

/-! ## Engine (internal/engine/engine.go) -/

/-- Embedding of `security.Finding` (scanner.go lines 30-39). -/
structure Finding where
  RuleID : GoStr
  Message : GoStr
  Severity : GoStr
  File : GoStr
  Line : Int
  Column : Int
  Description : GoStr
  Confidence : GoStr

/-- Embedding of `security.ScanResult` (scanner.go lines 22-27). -/
structure SecScanResult where
  Tool : GoStr
  Findings : List Finding
  Duration : Int
  Error : GoStr

/-- Embedding of `deadcode.Symbol` (detector.go lines 31-42); named
`DeadSymbol` here because `Symbol` already exists in the ambient library. -/
structure DeadSymbol where
  Name : GoStr
  Kind : GoStr
  Package : GoStr
  File : GoStr
  Line : Int
  Exported : Bool
  References : Int
  Risk : GoStr
  Description : GoStr

/-- Embedding of `deadcode.DeadCodeResult` (detector.go lines 24-28). -/
structure DeadCodeResult where
  Symbols : List DeadSymbol
  Duration : Int
  Error : GoStr

/-- Embedding of `engine.ScanOpts`. -/
structure ScanOpts where
  Security : Bool
  DeadCode : Bool

/-- Embedding of the exit-code computation of `Engine.Scan` (engine.go lines
117-203) as a pure function of the requested scan kinds and the adapter
outcomes (`securityResults` is what `scanner.Scan` returns, `deadCode` what
`detector.Detect` returns; in the current source both adapters always return
a nil Go error, so the fail-fast error branches of `Scan` are not taken).
`exitCode` starts at 0; a positive security finding total sets it to 10; a
positive dead-code symbol count sets it to 11 only if it is still 0. -/
def engineScanExitCode (opts : ScanOpts) (securityResults : List SecScanResult)
    (deadCode : DeadCodeResult) : Int :=
  let exitCode : Int := 0
  let exitCode :=
    if opts.Security then
      let totalFindings : Nat :=
        (securityResults.map fun r => r.Findings.length).sum
      if totalFindings > 0 then 10 else exitCode
    else exitCode
  let exitCode :=
    if opts.DeadCode then
      if deadCode.Symbols.length > 0 then
        if exitCode = 0 then 11 else exitCode
      else exitCode
    else exitCode
  exitCode

/-- Claim-side exit-code precedence (spec section 4.5): security findings
take precedence at 10, then dead-code symbols at 11, else 0. -/
def specExitCode (findings symbols : Nat) : Int :=
  if findings > 0 then 10 else if symbols > 0 then 11 else 0

/-- Embedding of `engine.Step`. -/
structure Step where
  Name : GoStr
  Why : GoStr
  BudgetTokens : Int
  Tools : List GoStr
  StopAfter : GoStr

/-- Embedding of `engine.Metadata` (with the creation instant abstract). -/
structure Metadata where
  CreatedAt : Int
  SuccessCriteria : List GoStr
  TotalTokens : Int

/-- Embedding of `engine.Plan`. -/
structure Plan where
  Steps : List Step
  Metadata : Metadata

/-- Embedding of `engine.ApplyResult`. -/
structure EngineApplyResult where
  Success : Bool
  Error : GoStr
  Files : List GoStr

/-- Embedding of `engine.PROptions`. -/
structure PROptions where
  Title : GoStr
  Body : GoStr
  Draft : Bool
  PlanPath : GoStr

/-- Embedding of `engine.PRResult`. -/
structure PRResult where
  URL : GoStr

/-- Embedding of `Engine.Apply` (engine.go lines 206-219): the body is a
TODO stub that ignores its arguments and returns a successful result with an
empty file list and a nil error. -/
def engineApply (_plan : Plan) (_approveLevel : GoStr) :
    EngineApplyResult × Option GoStr :=
  ({ Success := true, Error := [], Files := [] }, none)

/-- Embedding of `Engine.CreatePR` (engine.go lines 222-234): the body is a
TODO stub that returns a hard-coded pull-request URL and a nil error. -/
def engineCreatePR (_opts : PROptions) : PRResult × Option GoStr :=
  ({ URL := gs "https://github.com/example/repo/pull/123" }, none)

/-! ## Helper lemmas -/

/-- The runner's argument loop accepts lists of equal length exactly when
they are equal. -/
lemma Runner.argsMatchLoop_iff_eq (as : List GoStr) :
    ∀ bs : List GoStr, as.length = bs.length →
      (Runner.argsMatchLoop as bs = true ↔ as = bs) := by
  induction as with
  | nil =>
    intro bs h
    cases bs with
    | nil => simp [Runner.argsMatchLoop]
    | cons b bs => simp at h
  | cons a as ih =>
    intro bs h
    cases bs with
    | nil => simp at h
    | cons b bs =>
      simp only [Runner.argsMatchLoop]
      by_cases hab : a = b
      · subst hab
        simp only [if_pos rfl, List.cons.injEq, true_and]
        exact ih bs (by simpa using h)
      · simp [hab]

/-- The runner's argument loop accepts a list against itself. -/
lemma Runner.argsMatchLoop_self (as : List GoStr) :
    Runner.argsMatchLoop as as = true := by
  induction as with
  | nil => rfl
  | cons a as ih => simpa [Runner.argsMatchLoop] using ih

/-- Characterization of `Runner.allowed`: the invocation is allowed exactly
when the allowlist contains the tuple `cmd :: args` literally. -/
lemma Runner.allowed_iff_mem (r : Runner) (cmd : GoStr) (args : List GoStr) :
    r.allowed cmd args = true ↔ (cmd :: args) ∈ r.Allow := by
  unfold Runner.allowed
  rw [List.any_eq_true]
  constructor
  · rintro ⟨al, hmem, hpred⟩
    cases al with
    | nil => simp at hpred
    | cons a0 rest =>
      simp only [Bool.and_eq_true, decide_eq_true_eq] at hpred
      obtain ⟨⟨hlen, hcmd⟩, hloop⟩ := hpred
      have hrest : rest = args := (Runner.argsMatchLoop_iff_eq rest args hlen).mp hloop
      rw [← hcmd, ← hrest]
      exact hmem
  · intro hmem
    refine ⟨cmd :: args, hmem, ?_⟩
    simp [Runner.argsMatchLoop_self]

/-- The two textually duplicated argument loops are the same function. -/
lemma Policy.argsMatchLoop_eq_runner :
    Policy.argsMatchLoop = Runner.argsMatchLoop := by
  funext as bs
  induction as generalizing bs with
  | nil => cases bs <;> rfl
  | cons a as ih =>
    cases bs with
    | nil => rfl
    | cons b bs =>
      simp only [Policy.argsMatchLoop, Runner.argsMatchLoop]
      by_cases hab : a = b <;> simp [hab, ih]

/-- The duplicated allowlist evaluation in the policy package agrees with
the runner's, for a runner built from the policy's commands. -/
lemma Policy.isCommandAllowed_eq_runner_allowed (p : Policy) (timeout : Int)
    (cmd : GoStr) (args : List GoStr) :
    p.IsCommandAllowed cmd args =
      (NewRunner p.Allowlist.Commands timeout).allowed cmd args := by
  unfold Policy.IsCommandAllowed Runner.allowed NewRunner
  rw [Policy.argsMatchLoop_eq_runner]

/-- Characterization of `Policy.IsCommandAllowed`, mirroring
`Runner.allowed_iff_mem`. -/
lemma Policy.isCommandAllowed_iff_mem (p : Policy) (cmd : GoStr)
    (args : List GoStr) :
    p.IsCommandAllowed cmd args = true ↔
      (cmd :: args) ∈ p.Allowlist.Commands := by
  rw [Policy.isCommandAllowed_eq_runner_allowed p 0]
  exact Runner.allowed_iff_mem (NewRunner p.Allowlist.Commands 0) cmd args

/-- Each `ApplyPatch` loop step leaves the applied-files accumulator
unchanged, because `applySinglePatch` is a stub that always errors. -/
lemma applyPatchStep_fst (p : Patcher) (gm : GoStr → GoStr → Bool)
    (cwd : GoStr) (acc : List GoStr × List GoStr) (patch : FilePatch) :
    (applyPatchStep p gm cwd acc patch).1 = acc.1 := by
  unfold applyPatchStep applySinglePatch
  split <;> rfl

/-- The `ApplyPatch` loop never grows the applied-files accumulator. -/
lemma applyPatchFold_fst (p : Patcher) (gm : GoStr → GoStr → Bool)
    (cwd : GoStr) (patches : List FilePatch) :
    ∀ acc : List GoStr × List GoStr,
      (patches.foldl (applyPatchStep p gm cwd) acc).1 = acc.1 := by
  induction patches with
  | nil => intro acc; rfl
  | cons hd tl ih =>
    intro acc
    rw [List.foldl_cons, ih, applyPatchStep_fst]

/-- Errors already accumulated by the `ApplyPatch` loop are never removed. -/
lemma applyPatchFold_errs_mono (p : Patcher) (gm : GoStr → GoStr → Bool)
    (cwd : GoStr) (patches : List FilePatch) :
    ∀ (acc : List GoStr × List GoStr) (e : GoStr),
      e ∈ acc.2 → e ∈ (patches.foldl (applyPatchStep p gm cwd) acc).2 := by
  induction patches with
  | nil => intro acc e he; exact he
  | cons hd tl ih =>
    intro acc e he
    rw [List.foldl_cons]
    apply ih
    unfold applyPatchStep applySinglePatch
    split
    · exact List.mem_append_left _ he
    · exact List.mem_append_left _ he

/-- A denied file anywhere in the patch set contributes its
"path not allowed" message to the loop's error accumulator. -/
lemma applyPatchFold_denied_mem (p : Patcher) (gm : GoStr → GoStr → Bool)
    (cwd : GoStr) (patches : List FilePatch) :
    ∀ (acc : List GoStr × List GoStr) (fp : FilePatch),
      fp ∈ patches → p.isPathAllowed gm cwd fp.File = false →
      (gs "path not allowed: " ++ fp.File) ∈
        (patches.foldl (applyPatchStep p gm cwd) acc).2 := by
  induction patches with
  | nil => intro acc fp hmem _; simp at hmem
  | cons hd tl ih =>
    intro acc fp hmem hden
    rw [List.foldl_cons]
    rcases List.mem_cons.mp hmem with heq | htl
    · subst heq
      apply applyPatchFold_errs_mono
      unfold applyPatchStep
      rw [hden]
      simp
    · exact ih _ fp htl hden

/-- Claim-side predicate: the string has an ASCII alphabetic character
(as tested by the `looksLikeToken` rune loop). -/
def hasAlphaChar (s : GoStr) : Bool :=
  s.any fun r =>
    ('a'.toNat ≤ r.toNat && r.toNat ≤ 'z'.toNat) ||
      ('A'.toNat ≤ r.toNat && r.toNat ≤ 'Z'.toNat)

/-- Claim-side predicate: the string has an ASCII numeric character. -/
def hasNumChar (s : GoStr) : Bool :=
  s.any fun r => '0'.toNat ≤ r.toNat && r.toNat ≤ '9'.toNat

/-- `looksLikeToken` is the conjunction: length at least 20, an alphabetic
character, and a numeric character. -/
lemma looksLikeToken_eq (s : GoStr) :
    looksLikeToken s =
      (decide (20 ≤ s.length) && hasAlphaChar s && hasNumChar s) := by
  unfold looksLikeToken hasAlphaChar hasNumChar
  by_cases h : s.length < 20
  · simp [h, Nat.not_le.mpr h]
  · simp [h, Nat.not_lt.mp h, Bool.and_assoc]

/-- Claim-side redaction condition (spec section 4.4): length strictly above
the 20-character threshold, and either a sensitive keyword substring or the
token-shape heuristic (length at least 20 with both an alphabetic and a
numeric character). -/
def specRedactCond (arg : GoStr) : Bool :=
  decide (arg.length > 20) &&
    (containsSensitivePattern arg ||
      (decide (arg.length ≥ 20) && hasAlphaChar arg && hasNumChar arg))

/-- The source's redaction test coincides with the claim-side condition. -/
lemma redactCond_eq (arg : GoStr) :
    (decide (arg.length > 20) &&
        (containsSensitivePattern arg || looksLikeToken arg)) =
      specRedactCond arg := by
  rw [looksLikeToken_eq]
  rfl

/-! ## Claims -/

/-- C1, amended: for every program and argument vector, `Runner.allowed` and
`Policy.IsCommandAllowed` return true iff some allowlist tuple is literally
`program :: args` (same program, same argument count, positionally equal
arguments); and appending an extra argument to a matched invocation flips
the result to false whenever the allowlist does not also contain the
extended tuple.  (The unconditional flip stated by the claim fails when the
allowlist holds both a tuple and its extension, see the counterexample.) -/
theorem c1_allowlist_exact_match :
    ∀ (r : Runner) (p : Policy) (cmd : GoStr) (args : List GoStr),
      (r.allowed cmd args = true ↔ (cmd :: args) ∈ r.Allow) ∧
      (p.IsCommandAllowed cmd args = true ↔
        (cmd :: args) ∈ p.Allowlist.Commands) ∧
      (∀ extra : GoStr, r.allowed cmd args = true →
        (cmd :: (args ++ [extra])) ∉ r.Allow →
        r.allowed cmd (args ++ [extra]) = false) := by
  intro r p cmd args
  refine ⟨Runner.allowed_iff_mem r cmd args,
    Policy.isCommandAllowed_iff_mem p cmd args, ?_⟩
  intro extra _ hnot
  cases hall : r.allowed cmd (args ++ [extra]) with
  | false => rfl
  | true => exact absurd ((Runner.allowed_iff_mem r cmd _).mp hall) hnot

/-- C1 witness: with allowlist `[[go, build]]`, `go build` appended with
`--unsafe` is denied. -/
theorem c1_allowlist_exact_match_witness :
    (NewRunner [[gs "go", gs "build"]] 5).allowed (gs "go")
      ([gs "build"] ++ [gs "--unsafe"]) = false :=
  (c1_allowlist_exact_match (NewRunner [[gs "go", gs "build"]] 5)
      ⟨gs "1", ⟨4000, 800000, 200000, 4⟩, ⟨[[gs "go", gs "build"]]⟩, ⟨[], []⟩,
        ⟨true⟩⟩
      (gs "go") [gs "build"]).2.2 (gs "--unsafe") (by decide) (by decide)

/-- C1 counterexample: with an allowlist holding both `[go, build]` and
`[go, build, --unsafe]`, the invocation `go build` matches, yet appending
the extra argument `--unsafe` does not flip the result to false — refuting
the claim's unconditional "appending any extra argument flips the result". -/
theorem c1_append_flip_counterexample :
    (NewRunner [[gs "go", gs "build"], [gs "go", gs "build", gs "--unsafe"]]
        5).allowed (gs "go") [gs "build"] = true ∧
    (NewRunner [[gs "go", gs "build"], [gs "go", gs "build", gs "--unsafe"]]
        5).allowed (gs "go") ([gs "build"] ++ [gs "--unsafe"]) = true := by
  decide

/-- Concrete finding used to instantiate the C2 exit-code examples. -/
def sampleFinding : Finding :=
  { RuleID := gs "r1", Message := gs "m", Severity := gs "high",
    File := gs "f.go", Line := 1, Column := 1, Description := gs "",
    Confidence := gs "high" }

/-- Concrete dead-code symbol used to instantiate the C2 exit-code
examples. -/
def sampleDeadSymbol : DeadSymbol :=
  { Name := gs "helper", Kind := gs "func", Package := gs "p",
    File := gs "f.go", Line := 3, Exported := false, References := 0,
    Risk := gs "low", Description := gs "" }

/-- C2: `Engine.Scan` computes the exit code by the exact precedence
security-findings → 10, else dead-code symbols → 11, else 0, over the
aggregate counts of the requested scan kinds; in particular 1 finding and 3
symbols give 10, 0 findings and 3 symbols give 11, and 0 and 0 give 0. -/
theorem c2_exit_code_precedence :
    (∀ (opts : ScanOpts) (srs : List SecScanResult) (dc : DeadCodeResult),
      engineScanExitCode opts srs dc =
        specExitCode
          (if opts.Security then (srs.map fun r => r.Findings.length).sum
           else 0)
          (if opts.DeadCode then dc.Symbols.length else 0)) ∧
    engineScanExitCode ⟨true, true⟩
        [⟨gs "semgrep", [sampleFinding], 0, gs ""⟩]
        ⟨[sampleDeadSymbol, sampleDeadSymbol, sampleDeadSymbol], 0, gs ""⟩
      = 10 ∧
    engineScanExitCode ⟨true, true⟩ [⟨gs "semgrep", [], 0, gs ""⟩]
        ⟨[sampleDeadSymbol, sampleDeadSymbol, sampleDeadSymbol], 0, gs ""⟩
      = 11 ∧
    engineScanExitCode ⟨true, true⟩ [⟨gs "semgrep", [], 0, gs ""⟩]
        ⟨[], 0, gs ""⟩ = 0 := by
  refine ⟨?_, by decide, by decide, by decide⟩
  rintro ⟨sec, dead⟩ srs dc
  unfold engineScanExitCode specExitCode
  cases sec <;> cases dead <;>
    by_cases hf : (srs.map fun r => r.Findings.length).sum > 0 <;>
    by_cases hs : dc.Symbols.length > 0 <;>
    simp [hf, hs]

/-- C3, amended: `Patcher.isPathAllowed` returns false whenever the cleaned
path starts with a configured deny-path prefix, regardless of the deny-glob
rules (for every glob matcher); and it returns false for every path whose
absolute form does not have the absolute form of the workspace root as a
string prefix (e.g. `../../etc/passwd` under workspace `/ws`), regardless of
the deny lists — string-prefix containment, not directory containment, is
what the final check tests (see the counterexample). -/
theorem c3_deny_prefix_and_containment :
    ∀ (p : Patcher) (globMatch : GoStr → GoStr → Bool) (cwd path : GoStr),
      ((∃ d ∈ p.DenyPaths, hasPrefixStr (filepathClean path) d = true) →
        p.isPathAllowed globMatch cwd path = false) ∧
      (hasPrefixStr (filepathAbs cwd (filepathClean path))
          (filepathAbs cwd p.Workspace) = false →
        p.isPathAllowed globMatch cwd path = false) := by
  intro p gm cwd path
  constructor
  · rintro ⟨d, hd, hpre⟩
    have hany :
        (p.DenyPaths.any fun dp => hasPrefixStr (filepathClean path) dp)
          = true :=
      List.any_eq_true.mpr ⟨d, hd, hpre⟩
    simp [Patcher.isPathAllowed, hany]
  · intro hpre
    simp only [Patcher.isPathAllowed]
    split
    · rfl
    · split
      · rfl
      · exact hpre

/-- C3 witness: `/etc/passwd` is denied under deny prefix `/etc` (globs
empty), and `../../etc/passwd` relative to workspace `/ws` is denied with
both deny lists empty. -/
theorem c3_deny_prefix_and_containment_witness :
    Patcher.isPathAllowed ⟨gs "/ws", [gs "/etc"], []⟩ (fun _ _ => false)
        (gs "/ws") (gs "/etc/passwd") = false ∧
    Patcher.isPathAllowed ⟨gs "/ws", [], []⟩ (fun _ _ => false) (gs "/ws")
        (gs "../../etc/passwd") = false :=
  ⟨(c3_deny_prefix_and_containment ⟨gs "/ws", [gs "/etc"], []⟩
      (fun _ _ => false) (gs "/ws") (gs "/etc/passwd")).1
      ⟨gs "/etc", by decide, by decide⟩,
   (c3_deny_prefix_and_containment ⟨gs "/ws", [], []⟩ (fun _ _ => false)
      (gs "/ws") (gs "../../etc/passwd")).2 (by decide)⟩

/-- C3 counterexample: `/wsother/f` does not fall under the workspace
directory `/ws` (its absolute form is not contained at a path-component
boundary), yet with both deny lists empty `isPathAllowed` reports it
allowed — refuting the claim that every path outside the workspace root is
denied. -/
theorem c3_outside_workspace_counterexample :
    isUnderDir (filepathAbs (gs "/") (filepathClean (gs "/wsother/f")))
        (filepathAbs (gs "/") (gs "/ws")) = false ∧
    Patcher.isPathAllowed ⟨gs "/ws", [], []⟩ (fun _ _ => false) (gs "/")
        (gs "/wsother/f") = true := by
  decide

/-- C4, amended: a denial returns a Result carrying the
"command not allowlisted" error whose Duration is the elapsed wall-clock
time of the allowlist check itself (`time.Since(start)` — zero only when the
clock does not advance), with empty output, exit code 0, and an empty effect
trace: no external process is started and no other side effect occurs. -/
theorem c4_denied_run_result :
    ∀ (r : Runner) (cmd : GoStr) (args : List GoStr) (checkElapsed : Int)
      (exec : ExecOutcome),
      r.allowed cmd args = false →
      r.RunModel cmd args checkElapsed exec =
        ({ Stdout := [], Stderr := none, ExitCode := 0,
           Duration := checkElapsed,
           Error := some (gs "command not allowlisted") }, []) := by
  intro r cmd args t ex h
  simp [Runner.RunModel, h]

/-- C4 witness: the denied invocation `rm -rf /` under allowlist
`[[go, build]]` yields exactly the denial result with no effects. -/
theorem c4_denied_run_result_witness :
    (NewRunner [[gs "go", gs "build"]] 5).RunModel (gs "rm")
        [gs "-rf", gs "/"] 0 ⟨[], none, 0, false, 0⟩ =
      ({ Stdout := [], Stderr := none, ExitCode := 0, Duration := 0,
         Error := some (gs "command not allowlisted") }, []) :=
  c4_denied_run_result _ _ _ _ _ (by decide)

/-- C4 counterexample: the denial result's Duration is `time.Since(start)`,
the elapsed time of the check — here the clock advanced by 7 between the two
readings, so the denied Result carries a non-zero duration, refuting the
claim's "zero duration". -/
theorem c4_duration_counterexample :
    (((NewRunner [[gs "go", gs "build"]] 5).RunModel (gs "rm")
        [gs "-rf", gs "/"] 7 ⟨[], none, 0, false, 0⟩).1.Error =
      some (gs "command not allowlisted")) ∧
    ¬ (((NewRunner [[gs "go", gs "build"]] 5).RunModel (gs "rm")
        [gs "-rf", gs "/"] 7 ⟨[], none, 0, false, 0⟩).1.Duration = 0) := by
  decide

/-- C5: if any target file of a patch set is denied by the path guard, the
invocation's result reports failure (`Applied = false`), mutates no file at
all (`Files = []` — in the current source no file is ever mutated, since
`applySinglePatch` is an always-failing stub), and the error list contains
the "path not allowed" message naming the denied file. -/
theorem c5_denied_patchset_all_or_nothing :
    ∀ (p : Patcher) (globMatch : GoStr → GoStr → Bool) (cwd : GoStr)
      (patches : List FilePatch) (fp : FilePatch),
      fp ∈ patches → p.isPathAllowed globMatch cwd fp.File = false →
      (applyPatchResultOf (applyPatchLoop p globMatch cwd patches)).Applied
          = false ∧
      (applyPatchResultOf (applyPatchLoop p globMatch cwd patches)).Files
          = [] ∧
      (gs "path not allowed: " ++ fp.File) ∈
        (applyPatchLoop p globMatch cwd patches).2 := by
  intro p gm cwd patches fp hmem hden
  have herr := applyPatchFold_denied_mem p gm cwd patches ([], []) fp hmem hden
  have hne : (patches.foldl (applyPatchStep p gm cwd) ([], [])).2 ≠ [] :=
    List.ne_nil_of_mem herr
  refine ⟨?_, ?_, ?_⟩
  · simp only [applyPatchResultOf, applyPatchLoop]
    exact decide_eq_false fun h0 => hne (List.length_eq_zero.mp h0)
  · simp only [applyPatchResultOf, applyPatchLoop]
    exact applyPatchFold_fst p gm cwd patches ([], [])
  · simp only [applyPatchLoop]
    exact herr

/-- C5 witness: a two-file patch set whose first file `/etc/passwd` is
denied by deny prefix `/etc` ends with `Applied = false`, an empty applied
list, and the denial message in the error accumulator. -/
theorem c5_denied_patchset_all_or_nothing_witness :
    (applyPatchResultOf (applyPatchLoop ⟨gs "/ws", [gs "/etc"], []⟩
        (fun _ _ => false) (gs "/ws")
        [⟨gs "/etc/passwd", []⟩, ⟨gs "/ws/a.go", []⟩])).Applied = false ∧
    (applyPatchResultOf (applyPatchLoop ⟨gs "/ws", [gs "/etc"], []⟩
        (fun _ _ => false) (gs "/ws")
        [⟨gs "/etc/passwd", []⟩, ⟨gs "/ws/a.go", []⟩])).Files = [] ∧
    (gs "path not allowed: " ++ (⟨gs "/etc/passwd", []⟩ : FilePatch).File) ∈
      (applyPatchLoop ⟨gs "/ws", [gs "/etc"], []⟩ (fun _ _ => false)
        (gs "/ws") [⟨gs "/etc/passwd", []⟩, ⟨gs "/ws/a.go", []⟩]).2 :=
  c5_denied_patchset_all_or_nothing ⟨gs "/ws", [gs "/etc"], []⟩
    (fun _ _ => false) (gs "/ws")
    [⟨gs "/etc/passwd", []⟩, ⟨gs "/ws/a.go", []⟩] ⟨gs "/etc/passwd", []⟩
    (List.mem_cons_self _ _) (by decide)

/-- C6, amended: `Runner.Run` writes no audit record at all — its effect
trace contains zero audit writes for every invocation, allowed or denied;
in particular a denied command produces zero `tool.run` records at the
runner layer, not exactly one (the only `LogToolCall` call sites are in
`Engine.Scan`, once per scan kind, not per command invocation). -/
theorem c6_runner_never_audits :
    ∀ (r : Runner) (cmd : GoStr) (args : List GoStr) (checkElapsed : Int)
      (exec : ExecOutcome),
      ((r.RunModel cmd args checkElapsed exec).2.filter
        Effect.isAuditWrite).length = 0 := by
  intro r cmd args t ex
  by_cases h : r.allowed cmd args = true
  · simp [Runner.RunModel, h, Effect.isAuditWrite, List.filter]
  · have h' : r.allowed cmd args = false := by
      simpa using h
    simp [Runner.RunModel, h', List.filter]

/-- C6 counterexample: a command invocation denied by the allowlist
produces zero audit records — not exactly one — refuting the claim. -/
theorem c6_denied_zero_audit_counterexample :
    (((NewRunner [[gs "go", gs "build"]] 5).RunModel (gs "rm")
        [gs "-rf", gs "/"] 0 ⟨[], none, 0, false, 0⟩).1.Error =
      some (gs "command not allowlisted")) ∧
    ¬ ((((NewRunner [[gs "go", gs "build"]] 5).RunModel (gs "rm")
        [gs "-rf", gs "/"] 0 ⟨[], none, 0, false, 0⟩).2.filter
          Effect.isAuditWrite).length = 1) := by
  decide

/-- C7: evaluation of the stub bodies.  `Patcher.applySinglePatch` does fail
loudly with "patch application not implemented", but `Engine.Apply` returns
a successful result (`Success = true`, nil error) and `Engine.CreatePR`
returns a hard-coded example URL with a nil error for every input — the
engine-level stubs silently succeed instead of failing with a
"not implemented" signal, contradicting the claim (and the spec's stated
fail-loud contract). -/
theorem c7_stub_results :
    (∀ (plan : Plan) (approveLevel : GoStr),
      engineApply plan approveLevel =
        ({ Success := true, Error := [], Files := [] }, none)) ∧
    (∀ opts : PROptions,
      engineCreatePR opts =
        ({ URL := gs "https://github.com/example/repo/pull/123" }, none)) ∧
    (∀ patch : FilePatch,
      applySinglePatch patch =
        some (gs "patch application not implemented")) :=
  ⟨fun _ _ => rfl, fun _ => rfl, fun _ => rfl⟩

/-- C8: with PII redaction enabled, an argument is replaced by the fixed
marker exactly when its length exceeds 20 and it either contains a
sensitive keyword (case-insensitively) or has length at least 20 with both
an alphabetic and a numeric character; consequently an argument of length
at most 20 is never redacted, even if it contains "token". -/
theorem c8_redaction_condition :
    (∀ args : List GoStr,
      maybeRedactArgs true args =
        args.map fun arg =>
          if specRedactCond arg then redactedMarker else arg) ∧
    (∀ arg : GoStr, arg.length ≤ 20 → maybeRedactArgs true [arg] = [arg]) := by
  constructor
  · intro args
    unfold maybeRedactArgs
    have hf :
        (fun arg =>
            if decide (arg.length > 20) &&
                (containsSensitivePattern arg || looksLikeToken arg) then
              redactedMarker
            else arg) =
          fun arg => if specRedactCond arg then redactedMarker else arg := by
      funext arg
      rw [redactCond_eq]
    simp only [Bool.not_true, Bool.false_eq_true, if_false, hf]
  · intro arg h
    have hlt : ¬ (20 < arg.length) := Nat.not_lt.mpr h
    simp [maybeRedactArgs, hlt]

/-- C8 witness: the 12-character argument "mytokenvalue" contains "token"
but is not redacted. -/
theorem c8_redaction_condition_witness :
    maybeRedactArgs true [gs "mytokenvalue"] = [gs "mytokenvalue"] :=
  c8_redaction_condition.2 (gs "mytokenvalue") (by decide)

/-- C9: with empty deny lists, `isPathAllowed` reduces to the
workspace-containment step, which accepts exactly when the absolute form of
the cleaned path has the absolute workspace as a string prefix; and there
is a path — `/wsother/f` with workspace `/ws` — lying outside the workspace
directory that passes the containment check and is reported allowed. -/
theorem c9_containment_is_string_match :
    (∀ (p : Patcher) (globMatch : GoStr → GoStr → Bool) (cwd path : GoStr),
      p.DenyPaths = [] → p.DenyGlobs = [] →
      p.isPathAllowed globMatch cwd path =
        hasPrefixStr (filepathAbs cwd (filepathClean path))
          (filepathAbs cwd p.Workspace)) ∧
    (isUnderDir (gs "/wsother/f") (gs "/ws") = false ∧
      Patcher.isPathAllowed ⟨gs "/ws", [], []⟩ (fun _ _ => false) (gs "/")
        (gs "/wsother/f") = true) := by
  refine ⟨?_, by decide, by decide⟩
  intro p gm cwd path hdp hdg
  simp [Patcher.isPathAllowed, hdp, hdg]

/-- C9 witness: with empty deny lists the guard's verdict on `sub/x.go`
equals the string-prefix containment test. -/
theorem c9_containment_is_string_match_witness :
    Patcher.isPathAllowed ⟨gs "/ws", [], []⟩ (fun _ _ => false) (gs "/ws")
        (gs "sub/x.go") =
      hasPrefixStr (filepathAbs (gs "/ws") (filepathClean (gs "sub/x.go")))
        (filepathAbs (gs "/ws") (gs "/ws")) :=
  c9_containment_is_string_match.1 ⟨gs "/ws", [], []⟩ (fun _ _ => false)
    (gs "/ws") (gs "sub/x.go") rfl rfl

/-- C10: the duplicated allowlist evaluations — `Runner.allowed` over a
runner constructed from a policy's allowlist commands, and
`Policy.IsCommandAllowed` over the same policy — are extensionally equal. -/
theorem c10_runner_policy_allowlist_agree :
    ∀ (p : Policy) (timeout : Int) (cmd : GoStr) (args : List GoStr),
      (NewRunner p.Allowlist.Commands timeout).allowed cmd args =
        p.IsCommandAllowed cmd args :=
  fun p t cmd args =>
    (Policy.isCommandAllowed_eq_runner_allowed p t cmd args).symm
